import Mathlib

/-!
Shallow embedding of the `euler` module of the `ode-event-solvers` crate
(`src/euler.rs`): an explicit forward Euler integrator with a fixed step
size and three nested loop rates (event / observation / report).

Modelling conventions:
* Rust `f64` scalars are modelled by `ℚ`; numeric literals become exact
  rationals.
* The state vector `OVector<T, D>` is modelled by an abstract type `V`
  with addition and scalar multiplication by `ℚ`.
* Rust panics (out-of-bounds indexing into `step_size`) are modelled by
  the `Except.error` branch, which carries the solver state at the panic
  point; `step_size[i]` becomes list lookup with a `none` branch.
* The Rust cast `.ceil() as usize` is modelled by `Int.toNat ∘ Int.ceil`
  (the cast saturates below at `0`).
-/

/-- Modelled from the spec: the `Stats` type from the missing `dop_shared`
module — counters for derivative evaluations and accepted steps
("Run Statistics: counters — number of derivative evaluations, number of
accepted steps"). -/
structure Stats where
  num_eval : ℕ
  accepted_steps : ℕ
deriving DecidableEq

/-- Modelled from the spec: `Stats::new()` creates zeroed counters
("reset only at construction"). -/
def Stats.new : Stats := ⟨0, 0⟩

/-- Modelled from the spec: the `IntegrationError` type from the missing
`dop_shared` module; §7's taxonomy names a configuration-error kind. -/
inductive IntegrationError where
  | configError
deriving DecidableEq

/-- Modelled from the spec: the `System<V>` trait from the missing
`dop_shared` module, with the derivative function `ode` and the
instantaneous `event` function (`derivative(x, y) -> state_delta`,
`event(x, y) -> state_delta`).  The third operation, `observer`, returns
`()` and is a pure notification hook; it is modelled by the ghost log
`obs_calls` in the solver state below. -/
structure OdeSystem (V : Type) where
  ode : ℚ → V → V
  event : ℚ → V → V

/-- The `Euler` struct of `src/euler.rs`.  `obs_calls` is a ghost field
logging the arguments of each `observer` invocation (the observer itself
has no return value and no effect on the solver state). -/
structure Euler (V : Type) where
  f : OdeSystem V
  x : ℚ
  y : V
  x_end : ℚ
  step_size : List ℚ
  x_out : List ℚ
  y_out : List V
  stats : Stats
  obs_calls : List (ℚ × V)

/-- `Euler::new`: initial state with empty output trace and zeroed stats. -/
def Euler.new {V : Type} (f : OdeSystem V) (x : ℚ) (y : V) (x_end : ℚ)
    (step_size : List ℚ) : Euler V :=
  ⟨f, x, y, x_end, step_size, [], [], Stats.new, []⟩

/-- The Rust cast `q.ceil() as usize`: ceiling, then saturating conversion
to a machine natural (negative values become `0`). -/
def ceil_as_usize (q : ℚ) : ℕ := (Int.ceil q).toNat

/-- `num_steps` in `integrate`: `((x_end - x)/step_size[2]).ceil() as usize`
— the outermost (report) loop count. -/
def num_report_steps (x x_end h_report : ℚ) : ℕ :=
  ceil_as_usize ((x_end - x) / h_report)

/-- `num_steps_per_obs` in `integrate`:
`(step_size[2]/step_size[1]).ceil() as usize` — the middle loop count. -/
def num_obs_per_report (h_report h_obs : ℚ) : ℕ :=
  ceil_as_usize (h_report / h_obs)

/-- `num_steps_per_event` in `integrate`:
`(step_size[1]/step_size[0]).ceil() as usize` — the innermost loop count. -/
def num_event_per_obs (h_obs h_event : ℚ) : ℕ :=
  ceil_as_usize (h_obs / h_event)

section Solver

variable {V : Type} [Add V] [SMul ℚ V]

/-- `Euler::step`: one forward Euler update.  Evaluates the derivative
`k₀ = f.ode x y` and returns `(x + h, y + k₀ * h)` with `h = step_size[0]`;
`none` models the panic when `step_size` is empty. -/
def Euler.step (s : Euler V) : Option (ℚ × V) :=
  match s.step_size[0]? with
  | none => none
  | some h =>
    let k0 := s.f.ode s.x s.y
    some (s.x + h, s.y + h • k0)

/-- `Euler::e_step`: the event update `y + event(x, y)`; does not advance
time. -/
def Euler.e_step (s : Euler V) : V :=
  s.y + s.f.event s.x s.y

/-- The body of the innermost loop of `integrate`: take one Euler step,
store the new time and state, and increment `num_eval` and
`accepted_steps` by one each. -/
def Euler.apply_step (s : Euler V) : Option (Euler V) :=
  match s.step with
  | none => none
  | some (x_new, y_new) =>
    some { s with x := x_new, y := y_new,
                  stats := { s.stats with
                              num_eval := s.stats.num_eval + 1,
                              accepted_steps := s.stats.accepted_steps + 1 } }

/-- Storing the result of `e_step`: `self.y = self.e_step()`. -/
def Euler.apply_e_step (s : Euler V) : Euler V :=
  { s with y := s.e_step }

/-- `self.f.observer(self.x, &self.y)`: record one observer invocation in
the ghost log. -/
def Euler.observe (s : Euler V) : Euler V :=
  { s with obs_calls := s.obs_calls ++ [(s.x, s.y)] }

/-- `self.x_out.push(self.x); self.y_out.push(self.y.clone())`: append the
current time and state to the output trace. -/
def Euler.record (s : Euler V) : Euler V :=
  { s with x_out := s.x_out ++ [s.x], y_out := s.y_out ++ [s.y] }

/-- The innermost loop: `for _ in 0..num_steps_per_event { ... }`. -/
def stepLoop : ℕ → Euler V → Except (Euler V) (Euler V)
  | 0, s => .ok s
  | n + 1, s =>
    match s.apply_step with
    | none => .error s
    | some s1 => stepLoop n s1

/-- The middle loop: `for _ in 0..num_steps_per_obs { ... }` — event
update, then the burst of Euler steps. -/
def obsLoop : ℕ → ℕ → Euler V → Except (Euler V) (Euler V)
  | 0, _, s => .ok s
  | m + 1, nev, s =>
    match stepLoop nev s.apply_e_step with
    | .error p => .error p
    | .ok s1 => obsLoop m nev s1

/-- The outer loop: `for _ in 0..num_steps { ... }` — middle loop, then
one observer call. -/
def reportLoop : ℕ → ℕ → ℕ → Euler V → Except (Euler V) (Euler V)
  | 0, _, _, s => .ok s
  | k + 1, m, nev, s =>
    match obsLoop m nev s with
    | .error p => .error p
    | .ok s1 => reportLoop k m nev s1.observe

/-- `Euler::integrate`: push the initial sample (`record`), fire the
observer, compute the three loop counts (indexing `step_size` at 2, 1, 0
— a panic point, modelled by `Except.error` carrying the state at the
panic), run the nested loops, push the final sample, and return
`Ok(self.stats)`.  The intermediate state `s.record.observe` is the value
of `self` right after the initial sample and observer call. -/
def Euler.integrate (s : Euler V) :
    Except (Euler V) (Euler V × Except IntegrationError Stats) :=
  match (s.record.observe).step_size[2]? with
  | none => .error s.record.observe
  | some h_report =>
    match (s.record.observe).step_size[1]? with
    | none => .error s.record.observe
    | some h_obs =>
      match (s.record.observe).step_size[0]? with
      | none => .error s.record.observe
      | some h_event =>
        match reportLoop
            (num_report_steps (s.record.observe).x (s.record.observe).x_end h_report)
            (num_obs_per_report h_report h_obs)
            (num_event_per_obs h_obs h_event)
            (s.record.observe) with
        | .error p => .error p
        | .ok s2 => .ok (s2.record, .ok s2.record.stats)

end Solver

/-- A trivial one-dimensional system (zero derivative, zero event delta),
used as a concrete dynamics provider in witnesses and counterexamples. -/
def zeroSystem : OdeSystem ℚ := ⟨fun _ _ => 0, fun _ _ => 0⟩

section Lemmas

variable {V : Type} [Add V] [SMul ℚ V]

/-- Characterization of the innermost loop: `n` iterations advance the time
by `n * h₀`, bump both counters by `n`, and leave every other non-state
field unchanged. -/
lemma stepLoop_spec (h0 : ℚ) :
    ∀ (n : ℕ) (s : Euler V), s.step_size[0]? = some h0 →
    ∃ s', stepLoop n s = .ok s'
      ∧ s'.f = s.f
      ∧ s'.x = s.x + n * h0
      ∧ s'.x_end = s.x_end
      ∧ s'.step_size = s.step_size
      ∧ s'.x_out = s.x_out
      ∧ s'.y_out = s.y_out
      ∧ s'.obs_calls = s.obs_calls
      ∧ s'.stats.num_eval = s.stats.num_eval + n
      ∧ s'.stats.accepted_steps = s.stats.accepted_steps + n := by
  intro n
  induction n with
  | zero =>
    intro s _
    exact ⟨s, rfl, rfl, by simp, rfl, rfl, rfl, rfl, rfl, rfl, rfl⟩
  | succ n ih =>
    intro s hs
    have hstep : s.apply_step = some
        { s with x := s.x + h0, y := s.y + h0 • s.f.ode s.x s.y,
                 stats := ⟨s.stats.num_eval + 1, s.stats.accepted_steps + 1⟩ } := by
      simp [Euler.apply_step, Euler.step, hs]
    obtain ⟨s', hrun, hf, hx, hxe, hss, hxo, hyo, hobs, hne, hac⟩ :=
      ih { s with x := s.x + h0, y := s.y + h0 • s.f.ode s.x s.y,
                  stats := ⟨s.stats.num_eval + 1, s.stats.accepted_steps + 1⟩ } hs
    refine ⟨s', ?_, hf, ?_, hxe, hss, hxo, hyo, hobs, ?_, ?_⟩
    · show (match s.apply_step with
            | none => Except.error s
            | some s1 => stepLoop n s1) = Except.ok s'
      rw [hstep]
      exact hrun
    · rw [hx]
      show s.x + h0 + ↑n * h0 = s.x + ↑(n + 1) * h0
      push_cast; ring
    · rw [hne]
      show s.stats.num_eval + 1 + n = s.stats.num_eval + (n + 1)
      omega
    · rw [hac]
      show s.stats.accepted_steps + 1 + n = s.stats.accepted_steps + (n + 1)
      omega

/-- Characterization of the middle loop: `m` iterations perform `m`
event updates and `m * nev` Euler steps; the output trace and observer
log are untouched. -/
lemma obsLoop_spec (h0 : ℚ) (nev : ℕ) :
    ∀ (m : ℕ) (s : Euler V), s.step_size[0]? = some h0 →
    ∃ s', obsLoop m nev s = .ok s'
      ∧ s'.f = s.f
      ∧ s'.x = s.x + (m * nev : ℕ) * h0
      ∧ s'.x_end = s.x_end
      ∧ s'.step_size = s.step_size
      ∧ s'.x_out = s.x_out
      ∧ s'.y_out = s.y_out
      ∧ s'.obs_calls = s.obs_calls
      ∧ s'.stats.num_eval = s.stats.num_eval + m * nev
      ∧ s'.stats.accepted_steps = s.stats.accepted_steps + m * nev := by
  intro m
  induction m with
  | zero =>
    intro s _
    exact ⟨s, rfl, rfl, by simp, rfl, rfl, rfl, rfl, rfl, by simp, by simp⟩
  | succ m ih =>
    intro s hs
    obtain ⟨s1, hrun1, hf1, hx1, hxe1, hss1, hxo1, hyo1, hobs1, hne1, hac1⟩ :=
      stepLoop_spec h0 nev s.apply_e_step hs
    obtain ⟨s', hrun, hf, hx, hxe, hss, hxo, hyo, hobs, hne, hac⟩ := ih s1 (by
      show s1.step_size[0]? = some h0
      rw [hss1]; exact hs)
    refine ⟨s', ?_, hf.trans hf1, ?_, hxe.trans hxe1, hss.trans hss1,
      hxo.trans hxo1, hyo.trans hyo1, hobs.trans hobs1, ?_, ?_⟩
    · show (match stepLoop nev s.apply_e_step with
            | Except.error p => Except.error p
            | Except.ok s1 => obsLoop m nev s1) = Except.ok s'
      rw [hrun1]
      exact hrun
    · rw [hx, hx1]
      show s.x + ↑nev * h0 + ↑(m * nev) * h0 = s.x + ↑((m + 1) * nev) * h0
      push_cast; ring
    · rw [hne, hne1]
      show s.stats.num_eval + nev + m * nev = s.stats.num_eval + (m + 1) * nev
      ring
    · rw [hac, hac1]
      show s.stats.accepted_steps + nev + m * nev =
        s.stats.accepted_steps + (m + 1) * nev
      ring

/-- Characterization of the outer loop: `k` iterations perform
`k * m * nev` Euler steps and append exactly `k` entries to the observer
log; the output trace is untouched. -/
lemma reportLoop_spec (h0 : ℚ) (m nev : ℕ) :
    ∀ (k : ℕ) (s : Euler V), s.step_size[0]? = some h0 →
    ∃ s' l, reportLoop k m nev s = .ok s'
      ∧ s'.f = s.f
      ∧ s'.x = s.x + (k * (m * nev) : ℕ) * h0
      ∧ s'.x_end = s.x_end
      ∧ s'.step_size = s.step_size
      ∧ s'.x_out = s.x_out
      ∧ s'.y_out = s.y_out
      ∧ s'.obs_calls = s.obs_calls ++ l
      ∧ l.length = k
      ∧ s'.stats.num_eval = s.stats.num_eval + k * (m * nev)
      ∧ s'.stats.accepted_steps = s.stats.accepted_steps + k * (m * nev) := by
  intro k
  induction k with
  | zero =>
    intro s _
    exact ⟨s, [], rfl, rfl, by simp, rfl, rfl, rfl, rfl, by simp, rfl,
      by simp, by simp⟩
  | succ k ih =>
    intro s hs
    obtain ⟨s1, hrun1, hf1, hx1, hxe1, hss1, hxo1, hyo1, hobs1, hne1, hac1⟩ :=
      obsLoop_spec h0 nev m s hs
    obtain ⟨s', l', hrun, hf, hx, hxe, hss, hxo, hyo, hobs, hlen, hne, hac⟩ :=
      ih s1.observe (by
        show s1.step_size[0]? = some h0
        rw [hss1]; exact hs)
    refine ⟨s', (s1.x, s1.y) :: l', ?_, hf.trans hf1, ?_, hxe.trans hxe1,
      hss.trans hss1, hxo.trans hxo1, hyo.trans hyo1, ?_, by simp [hlen],
      ?_, ?_⟩
    · show (match obsLoop m nev s with
            | Except.error p => Except.error p
            | Except.ok s1 => reportLoop k m nev s1.observe) = Except.ok s'
      rw [hrun1]
      exact hrun
    · rw [hx]
      show s1.x + ↑(k * (m * nev)) * h0 = s.x + ↑((k + 1) * (m * nev)) * h0
      rw [hx1]
      push_cast; ring
    · rw [hobs]
      show (s1.obs_calls ++ [(s1.x, s1.y)]) ++ l' =
        s.obs_calls ++ ((s1.x, s1.y) :: l')
      rw [hobs1]
      simp
    · rw [hne]
      show s1.stats.num_eval + k * (m * nev) =
        s.stats.num_eval + (k + 1) * (m * nev)
      rw [hne1]
      ring
    · rw [hac]
      show s1.stats.accepted_steps + k * (m * nev) =
        s.stats.accepted_steps + (k + 1) * (m * nev)
      rw [hac1]
      ring

/-- Characterization of a full `integrate` run when `step_size` has at
least three entries: the run succeeds, returns `Ok` of the final stats,
appends exactly the initial and final samples to the output trace, fires
the observer `1 + num_report_steps` times, and bumps both counters by the
product of the three loop counts. -/
lemma integrate_spec (s : Euler V) (h0 h1 h2 : ℚ)
    (g0 : s.step_size[0]? = some h0) (g1 : s.step_size[1]? = some h1)
    (g2 : s.step_size[2]? = some h2) :
    ∃ s' l, s.integrate = .ok (s', .ok s'.stats)
      ∧ s'.f = s.f
      ∧ s'.x = s.x + (num_report_steps s.x s.x_end h2 *
          (num_obs_per_report h2 h1 * num_event_per_obs h1 h0) : ℕ) * h0
      ∧ s'.x_end = s.x_end
      ∧ s'.step_size = s.step_size
      ∧ s'.x_out = s.x_out ++ [s.x, s.x + (num_report_steps s.x s.x_end h2 *
          (num_obs_per_report h2 h1 * num_event_per_obs h1 h0) : ℕ) * h0]
      ∧ (∃ yf, s'.y_out = s.y_out ++ [s.y, yf])
      ∧ s'.obs_calls = s.obs_calls ++ [(s.x, s.y)] ++ l
      ∧ l.length = num_report_steps s.x s.x_end h2
      ∧ s'.stats.num_eval = s.stats.num_eval + num_report_steps s.x s.x_end h2 *
          (num_obs_per_report h2 h1 * num_event_per_obs h1 h0)
      ∧ s'.stats.accepted_steps = s.stats.accepted_steps +
          num_report_steps s.x s.x_end h2 *
          (num_obs_per_report h2 h1 * num_event_per_obs h1 h0) := by
  obtain ⟨s2, l, hrun, hf, hx, hxe, hss, hxo, hyo, hobs, hlen, hne, hac⟩ :=
    reportLoop_spec h0 (num_obs_per_report h2 h1) (num_event_per_obs h1 h0)
      (num_report_steps s.x s.x_end h2) s.record.observe g0
  refine ⟨s2.record, l, ?_, hf, hx, hxe, hss, ?_, ⟨s2.y, ?_⟩, hobs, hlen,
    hne, hac⟩
  · unfold Euler.integrate
    rw [show (s.record.observe).step_size[2]? = some h2 from g2,
      show (s.record.observe).step_size[1]? = some h1 from g1,
      show (s.record.observe).step_size[0]? = some h0 from g0]
    show (match reportLoop (num_report_steps s.x s.x_end h2)
            (num_obs_per_report h2 h1) (num_event_per_obs h1 h0)
            s.record.observe with
          | Except.error p => Except.error p
          | Except.ok s2 => Except.ok (s2.record, Except.ok s2.record.stats)) =
        Except.ok (s2.record, Except.ok s2.record.stats)
    rw [hrun]
  · show s2.x_out ++ [s2.x] = _
    rw [hxo, hx]
    show (s.x_out ++ [s.x]) ++ [s.x + _ * h0] = _
    simp
  · show s2.y_out ++ [s2.y] = _
    rw [hyo]
    show (s.y_out ++ [s.y]) ++ [s2.y] = _
    simp

/-- Degenerate runs: when the outer loop count is zero, `integrate` only
pushes the initial and final samples (which coincide) and fires the
observer once. -/
lemma integrate_zero_spec (s : Euler V) (h0 h1 h2 : ℚ)
    (g0 : s.step_size[0]? = some h0) (g1 : s.step_size[1]? = some h1)
    (g2 : s.step_size[2]? = some h2)
    (hN : num_report_steps s.x s.x_end h2 = 0) :
    s.integrate = .ok (s.record.observe.record,
      .ok s.record.observe.record.stats) := by
  unfold Euler.integrate
  rw [show (s.record.observe).step_size[2]? = some h2 from g2,
    show (s.record.observe).step_size[1]? = some h1 from g1,
    show (s.record.observe).step_size[0]? = some h0 from g0]
  show (match reportLoop (num_report_steps s.x s.x_end h2)
          (num_obs_per_report h2 h1) (num_event_per_obs h1 h0)
          s.record.observe with
        | Except.error p => Except.error p
        | Except.ok s2 => Except.ok (s2.record, Except.ok s2.record.stats)) = _
  rw [hN]
  rfl

/-- A list with at least three entries has entries at indices 0, 1, 2. -/
lemma ss_lookup_of_len {l : List ℚ} (h : 3 ≤ l.length) :
    ∃ h0 h1 h2, l[0]? = some h0 ∧ l[1]? = some h1 ∧ l[2]? = some h2 := by
  refine ⟨l.get ⟨0, by omega⟩, l.get ⟨1, by omega⟩, l.get ⟨2, by omega⟩,
    ?_, ?_, ?_⟩ <;> simp [List.getElem?_eq_getElem, List.get_eq_getElem, *]

/-- When the step-size vector has fewer than three entries, `integrate`
hits the out-of-bounds access at `step_size[2]` and fails, with the
initial sample and observer call already performed. -/
lemma integrate_short_spec (s : Euler V) (h : s.step_size.length < 3) :
    s.integrate = .error s.record.observe := by
  unfold Euler.integrate
  rw [show (s.record.observe).step_size[2]? = none from
    List.getElem?_eq_none (show s.record.observe.step_size.length ≤ 2 from by
      show s.step_size.length ≤ 2
      omega)]

end Lemmas

section Claims

variable {V : Type} [Add V] [SMul ℚ V]

/-- C1 (counterexample): at the configuration `x0 = 0`, `x_end = 1`,
`step_size = [1, 1, 1]` — the report rate evenly divides the total
interval and `num_report_steps = 1` — the run succeeds with an output
trace of length 2, not `num_report_steps + 2 = 3`: no sample is appended
per outer (report) iteration. -/
theorem C1_counterexample :
    ∃ s', (Euler.new zeroSystem 0 (0:ℚ) 1 [1, 1, 1]).integrate
        = .ok (s', .ok s'.stats)
      ∧ s'.x_out.length = 2
      ∧ num_report_steps 0 1 1 + 2 = 3
      ∧ (2 : ℕ) ≠ 3 := by
  obtain ⟨s', l, hrun, _, _, _, _, hxo, _⟩ :=
    integrate_spec (Euler.new zeroSystem 0 (0:ℚ) 1 [1, 1, 1]) 1 1 1 rfl rfl rfl
  refine ⟨s', hrun, by simp [hxo, Euler.new], ?_, by decide⟩
  norm_num [num_report_steps, ceil_as_usize]

/-- C1 (amended): for every successful run of `integrate` started from
`Euler.new`, the output trace (`x_out` and `y_out`) has length exactly 2:
one sample appended at run start and one at run completion; per-report
boundaries fire the observer but append nothing to the trace. -/
theorem C1_output_cadence (f : OdeSystem V) (x0 : ℚ) (y0 : V)
    (x_end : ℚ) (ss : List ℚ) (h0 h1 h2 : ℚ)
    (g0 : ss[0]? = some h0) (g1 : ss[1]? = some h1)
    (g2 : ss[2]? = some h2) :
    ∃ s', (Euler.new f x0 y0 x_end ss).integrate = .ok (s', .ok s'.stats)
      ∧ s'.x_out.length = 2 ∧ s'.y_out.length = 2 := by
  obtain ⟨s', l, hrun, _, _, _, _, hxo, ⟨yf, hyo⟩, _⟩ :=
    integrate_spec (Euler.new f x0 y0 x_end ss) h0 h1 h2 g0 g1 g2
  exact ⟨s', hrun, by simp [hxo, Euler.new], by simp [hyo, Euler.new]⟩

/-- C1 witness: the amended statement at a concrete configuration. -/
theorem C1_output_cadence_witness :
    ∃ s', (Euler.new zeroSystem 0 (0:ℚ) 1 [1, 1, 1]).integrate
        = .ok (s', .ok s'.stats)
      ∧ s'.x_out.length = 2 ∧ s'.y_out.length = 2 :=
  C1_output_cadence zeroSystem 0 0 1 [1, 1, 1] 1 1 1 rfl rfl rfl

/-- C2 (counterexample): for `step_size = [0.1, 0.1, 1.0]` the innermost
loop count computed by `integrate` (`num_steps_per_event = ceil(h_obs /
h_event)`) is 1 and the middle one (`num_steps_per_obs`) is 10 — not 10
and 1 as the claim states. -/
theorem C2_counterexample :
    num_event_per_obs ((1:ℚ)/10) (1/10) = 1
    ∧ num_obs_per_report 1 ((1:ℚ)/10) = 10
    ∧ (1 : ℕ) ≠ 10 :=
  ⟨by norm_num [num_event_per_obs, ceil_as_usize],
   by norm_num [num_obs_per_report, ceil_as_usize]; decide,
   by decide⟩

/-- C2 (amended): for the configuration `x0 = 0`, `x_end = 1`,
`step_size = [0.1, 0.1, 1.0]`, the inner, middle and outer loop counts
computed by `integrate` are exactly 1, 10 and 1 respectively, and the
derivative-evaluation counter equals 10 after the run. -/
theorem C2_step_count_determinism :
    ∃ s', (Euler.new zeroSystem 0 (0:ℚ) 1 [1/10, 1/10, 1]).integrate
        = .ok (s', .ok s'.stats)
      ∧ num_event_per_obs ((1:ℚ)/10) (1/10) = 1
      ∧ num_obs_per_report 1 ((1:ℚ)/10) = 10
      ∧ num_report_steps (0:ℚ) 1 1 = 1
      ∧ s'.stats.num_eval = 10 := by
  obtain ⟨s', l, hrun, _, _, _, _, _, _, _, _, hne, _⟩ :=
    integrate_spec (Euler.new zeroSystem 0 (0:ℚ) 1 [1/10, 1/10, 1])
      (1/10) (1/10) 1 rfl rfl rfl
  refine ⟨s', hrun,
    by norm_num [num_event_per_obs, ceil_as_usize],
    by norm_num [num_obs_per_report, ceil_as_usize]; decide,
    by norm_num [num_report_steps, ceil_as_usize], ?_⟩
  rw [hne]
  show 0 + num_report_steps (0:ℚ) 1 1 *
    (num_obs_per_report 1 ((1:ℚ)/10) * num_event_per_obs ((1:ℚ)/10) (1/10)) = 10
  norm_num [num_report_steps, num_obs_per_report, num_event_per_obs,
    ceil_as_usize]
  decide

/-- C3: for every successful run of `integrate` from `Euler.new`, after it
returns, `accepted_steps = num_eval` and both equal
`num_report_steps * num_obs_per_report * num_event_per_obs`. -/
theorem C3_statistics_accounting (f : OdeSystem V) (x0 : ℚ) (y0 : V)
    (x_end : ℚ) (ss : List ℚ) (h0 h1 h2 : ℚ)
    (g0 : ss[0]? = some h0) (g1 : ss[1]? = some h1)
    (g2 : ss[2]? = some h2) :
    ∃ s', (Euler.new f x0 y0 x_end ss).integrate = .ok (s', .ok s'.stats)
      ∧ s'.stats.accepted_steps = s'.stats.num_eval
      ∧ s'.stats.num_eval = num_report_steps x0 x_end h2 *
          num_obs_per_report h2 h1 * num_event_per_obs h1 h0 := by
  obtain ⟨s', l, hrun, _, _, _, _, _, _, _, _, hne, hac⟩ :=
    integrate_spec (Euler.new f x0 y0 x_end ss) h0 h1 h2 g0 g1 g2
  refine ⟨s', hrun, by rw [hac, hne]; rfl, ?_⟩
  rw [hne]
  show 0 + num_report_steps x0 x_end h2 *
      (num_obs_per_report h2 h1 * num_event_per_obs h1 h0) =
    num_report_steps x0 x_end h2 * num_obs_per_report h2 h1 *
      num_event_per_obs h1 h0
  ring

/-- C3 witness: the statement at a concrete configuration. -/
theorem C3_statistics_accounting_witness :
    ∃ s', (Euler.new zeroSystem 0 (0:ℚ) 1 [1, 1, 1]).integrate
        = .ok (s', .ok s'.stats)
      ∧ s'.stats.accepted_steps = s'.stats.num_eval
      ∧ s'.stats.num_eval = num_report_steps 0 1 1 *
          num_obs_per_report 1 1 * num_event_per_obs 1 1 :=
  C3_statistics_accounting zeroSystem 0 0 1 [1, 1, 1] 1 1 1 rfl rfl rfl

/-- C4: the Stepper contract: one invocation of `step` on `(x, y)` yields
`(x + h_event, y + f(x, y) * h_event)` with `h_event = step_size[0]`; the
loop body around it (`apply_step`) stores the result and increments both
counters by exactly one; the event update, the observer call and the
trace recording — the only other operations in a run — leave the time
unchanged. -/
theorem C4_stepper_contract (s : Euler V) (h0 : ℚ)
    (g0 : s.step_size[0]? = some h0) :
    s.step = some (s.x + h0, s.y + h0 • s.f.ode s.x s.y)
    ∧ s.apply_step = some { s with
        x := s.x + h0, y := s.y + h0 • s.f.ode s.x s.y,
        stats := ⟨s.stats.num_eval + 1, s.stats.accepted_steps + 1⟩ }
    ∧ s.apply_e_step.x = s.x
    ∧ s.observe.x = s.x
    ∧ s.record.x = s.x := by
  refine ⟨?_, ?_, rfl, rfl, rfl⟩
  · simp [Euler.step, g0]
  · simp [Euler.apply_step, Euler.step, g0]

/-- C4 witness: the stepper contract at a concrete state. -/
theorem C4_stepper_contract_witness :
    (Euler.new zeroSystem 0 (0:ℚ) 1 [1, 1, 1]).step
      = some (0 + 1, (0:ℚ) + (1:ℚ) • zeroSystem.ode 0 0)
    ∧ (Euler.new zeroSystem 0 (0:ℚ) 1 [1, 1, 1]).apply_e_step.x = 0 :=
  ⟨(C4_stepper_contract (Euler.new zeroSystem 0 (0:ℚ) 1 [1, 1, 1]) 1 rfl).1,
   (C4_stepper_contract (Euler.new zeroSystem 0 (0:ℚ) 1 [1, 1, 1]) 1
      rfl).2.2.1⟩

/-- C5: the Event Applier contract: one event application replaces the
state by `y + event(x, y)` and leaves the time and both statistics
counters unchanged. -/
theorem C5_event_applier_frame (s : Euler V) :
    s.apply_e_step.y = s.y + s.f.event s.x s.y
    ∧ s.apply_e_step.x = s.x
    ∧ s.apply_e_step.stats.num_eval = s.stats.num_eval
    ∧ s.apply_e_step.stats.accepted_steps = s.stats.accepted_steps :=
  ⟨rfl, rfl, rfl, rfl⟩

/-- C6: in every successful run from `Euler.new`, the observer is invoked
exactly `num_report_steps + 1` times — once at run start before any event
application or stepping (with `(x0, y0)`), and once per outer iteration
after its inner loops complete. -/
theorem C6_observer_cadence (f : OdeSystem V) (x0 : ℚ) (y0 : V)
    (x_end : ℚ) (ss : List ℚ) (h0 h1 h2 : ℚ)
    (g0 : ss[0]? = some h0) (g1 : ss[1]? = some h1)
    (g2 : ss[2]? = some h2) :
    ∃ s', (Euler.new f x0 y0 x_end ss).integrate = .ok (s', .ok s'.stats)
      ∧ s'.obs_calls.length = num_report_steps x0 x_end h2 + 1
      ∧ s'.obs_calls.head? = some (x0, y0) := by
  obtain ⟨s', l, hrun, _, _, _, _, _, _, hobs, hlen, _, _⟩ :=
    integrate_spec (Euler.new f x0 y0 x_end ss) h0 h1 h2 g0 g1 g2
  refine ⟨s', hrun, ?_, ?_⟩
  · rw [hobs]
    show (([] ++ [(x0, y0)]) ++ l).length = num_report_steps x0 x_end h2 + 1
    simp [hlen]
    rfl
  · rw [hobs]
    rfl

/-- C6 witness: the observer cadence at a concrete configuration. -/
theorem C6_observer_cadence_witness :
    ∃ s', (Euler.new zeroSystem 0 (0:ℚ) 1 [1, 1, 1]).integrate
        = .ok (s', .ok s'.stats)
      ∧ s'.obs_calls.length = num_report_steps 0 1 1 + 1
      ∧ s'.obs_calls.head? = some (0, 0) :=
  C6_observer_cadence zeroSystem 0 0 1 [1, 1, 1] 1 1 1 rfl rfl rfl

/-- C7: for every successful run from `Euler.new` with strictly positive
step sizes, the recorded output-time sequence is non-decreasing and its
first element is the configured initial time. -/
theorem C7_time_monotonicity (f : OdeSystem V) (x0 : ℚ) (y0 : V)
    (x_end : ℚ) (ss : List ℚ) (h0 h1 h2 : ℚ)
    (g0 : ss[0]? = some h0) (g1 : ss[1]? = some h1)
    (g2 : ss[2]? = some h2) (p0 : 0 < h0) (p1 : 0 < h1) (p2 : 0 < h2) :
    ∃ s', (Euler.new f x0 y0 x_end ss).integrate = .ok (s', .ok s'.stats)
      ∧ s'.x_out.Chain' (· ≤ ·)
      ∧ s'.x_out.head? = some x0 := by
  obtain ⟨s', l, hrun, _, _, _, _, hxo, _⟩ :=
    integrate_spec (Euler.new f x0 y0 x_end ss) h0 h1 h2 g0 g1 g2
  refine ⟨s', hrun, ?_, by rw [hxo]; rfl⟩
  rw [hxo]
  refine List.chain'_pair.mpr ?_
  exact le_add_of_nonneg_right (mul_nonneg (Nat.cast_nonneg _) p0.le)

/-- C7 witness: time monotonicity at a concrete configuration. -/
theorem C7_time_monotonicity_witness :
    ∃ s', (Euler.new zeroSystem 0 (0:ℚ) 1 [1, 1, 1]).integrate
        = .ok (s', .ok s'.stats)
      ∧ s'.x_out.Chain' (· ≤ ·)
      ∧ s'.x_out.head? = some 0 :=
  C7_time_monotonicity zeroSystem 0 0 1 [1, 1, 1] 1 1 1 rfl rfl rfl
    zero_lt_one zero_lt_one zero_lt_one

/-- C8 (counterexample): with an empty step-size vector, `integrate` does
not return `Ok`: it hits the unchecked index `step_size[2]` and panics, so
"always runs to completion and returns Ok for every configuration" fails. -/
theorem C8_counterexample :
    (Euler.new zeroSystem 0 (0:ℚ) 1 []).integrate.toOption = none := rfl

/-- C8 (amended): the `IntegrationError` result path is unreachable: for
every state whose step-size vector has at least three entries, `integrate`
runs all precomputed iterations and returns `Ok` carrying the final run
statistics.  (With fewer entries it panics on the unchecked index rather
than returning the `Err` variant.) -/
theorem C8_no_error_path (s : Euler V) (h : 3 ≤ s.step_size.length) :
    ∃ s', s.integrate = .ok (s', .ok s'.stats) := by
  obtain ⟨h0, h1, h2, g0, g1, g2⟩ := ss_lookup_of_len h
  obtain ⟨s', l, hrun, _⟩ := integrate_spec s h0 h1 h2 g0 g1 g2
  exact ⟨s', hrun⟩

/-- C8 witness: a successful run at a concrete configuration. -/
theorem C8_no_error_path_witness :
    ∃ s', (Euler.new zeroSystem 0 (0:ℚ) 1 [1, 1, 1]).integrate
        = .ok (s', .ok s'.stats) :=
  C8_no_error_path (Euler.new zeroSystem 0 (0:ℚ) 1 [1, 1, 1]) (by decide)

/-- C9 (counterexample): at `x0 = x_end = 0` with step sizes `[1, 1, 1]`,
the run succeeds but the observer is called exactly once (at run start),
not twice as the claim states. -/
theorem C9_counterexample :
    ∃ s', (Euler.new zeroSystem 0 (0:ℚ) 0 [1, 1, 1]).integrate
        = .ok (s', .ok s'.stats)
      ∧ s'.obs_calls.length = 1
      ∧ (1 : ℕ) ≠ 2 := by
  have hz : num_report_steps (0:ℚ) 0 1 = 0 := by
    norm_num [num_report_steps, ceil_as_usize]
  exact ⟨_, integrate_zero_spec (Euler.new zeroSystem 0 (0:ℚ) 0 [1, 1, 1])
    1 1 1 rfl rfl rfl hz, rfl, by decide⟩

/-- C9 (amended): with strictly positive step sizes and `x_end ≤ x0`, the
outer loop count is zero so all three loops run zero iterations:
`integrate` returns `Ok` with both counters zero, calls the observer
exactly once (at run start), and leaves `x_out = [x0, x0]` and
`y_out = [y0, y0]`. -/
theorem C9_degenerate_interval (f : OdeSystem V) (x0 : ℚ) (y0 : V)
    (x_end : ℚ) (h0 h1 h2 : ℚ) (p0 : 0 < h0) (p1 : 0 < h1) (p2 : 0 < h2)
    (hle : x_end ≤ x0) :
    ∃ s', (Euler.new f x0 y0 x_end [h0, h1, h2]).integrate
        = .ok (s', .ok s'.stats)
      ∧ num_report_steps x0 x_end h2 = 0
      ∧ s'.stats.num_eval = 0
      ∧ s'.stats.accepted_steps = 0
      ∧ s'.obs_calls.length = 1
      ∧ s'.x_out = [x0, x0]
      ∧ s'.y_out = [y0, y0] := by
  have hN : num_report_steps x0 x_end h2 = 0 := by
    unfold num_report_steps ceil_as_usize
    have hq : (x_end - x0) / h2 ≤ 0 :=
      div_nonpos_iff.mpr (Or.inr ⟨sub_nonpos.mpr hle, p2.le⟩)
    have hceil : Int.ceil ((x_end - x0) / h2) ≤ 0 :=
      Int.ceil_le.mpr (by exact_mod_cast hq)
    exact Int.toNat_of_nonpos hceil
  refine ⟨_, integrate_zero_spec (Euler.new f x0 y0 x_end [h0, h1, h2])
    h0 h1 h2 rfl rfl rfl hN, hN, rfl, rfl, rfl, ?_, ?_⟩
  · show ([] ++ [x0]) ++ [x0] = [x0, x0]
    simp
  · show ([] ++ [y0]) ++ [y0] = [y0, y0]
    simp

/-- C9 witness: the amended statement at a concrete configuration. -/
theorem C9_degenerate_interval_witness :
    ∃ s', (Euler.new zeroSystem 0 (0:ℚ) 0 [1, 1, 1]).integrate
        = .ok (s', .ok s'.stats)
      ∧ num_report_steps (0:ℚ) 0 1 = 0
      ∧ s'.stats.num_eval = 0
      ∧ s'.stats.accepted_steps = 0
      ∧ s'.obs_calls.length = 1
      ∧ s'.x_out = [0, 0]
      ∧ s'.y_out = [0, 0] :=
  C9_degenerate_interval zeroSystem 0 0 0 1 1 1 zero_lt_one zero_lt_one
    zero_lt_one le_rfl

/-- C10: `integrate` indexes the step-size vector at 0, 1 and 2 without
bounds checks: with at least three entries the whole run performs no
out-of-bounds access and returns `Ok`; with fewer entries it panics
during the loop-count computation (at `step_size[2]`), after the initial
sample has been pushed to the trace and the initial observer call fired. -/
theorem C10_bounds (s : Euler V) :
    (3 ≤ s.step_size.length → ∃ s', s.integrate = .ok (s', .ok s'.stats))
    ∧ (s.step_size.length < 3 →
        s.integrate = .error s.record.observe
        ∧ s.record.observe.x_out = s.x_out ++ [s.x]
        ∧ s.record.observe.y_out = s.y_out ++ [s.y]
        ∧ s.record.observe.obs_calls = s.obs_calls ++ [(s.x, s.y)]) := by
  constructor
  · intro h
    obtain ⟨h0, h1, h2, g0, g1, g2⟩ := ss_lookup_of_len h
    obtain ⟨s', l, hrun, _⟩ := integrate_spec s h0 h1 h2 g0 g1 g2
    exact ⟨s', hrun⟩
  · intro h
    exact ⟨integrate_short_spec s h, rfl, rfl, rfl⟩

/-- C10 witness: both branches at concrete configurations. -/
theorem C10_bounds_witness :
    (∃ s', (Euler.new zeroSystem 0 (0:ℚ) 1 [1, 1, 1]).integrate
        = .ok (s', .ok s'.stats))
    ∧ (Euler.new zeroSystem 0 (0:ℚ) 1 [1]).integrate
        = .error (Euler.new zeroSystem 0 (0:ℚ) 1 [1]).record.observe :=
  ⟨(C10_bounds (Euler.new zeroSystem 0 (0:ℚ) 1 [1, 1, 1])).1 (by decide),
   ((C10_bounds (Euler.new zeroSystem 0 (0:ℚ) 1 [1])).2 (by decide)).1⟩

end Claims
